import Mathlib

/-!
Verification of the temporal-interpolation and progressive-line-builder core of
`scripts/mvp_animation.py`.

The embedding below translates the relevant Python fragments:

* `get_build_fraction` (lines 59-66): the per-segment build fraction.  Python
  ints/floats are modelled by exact rationals; the `ZeroDivisionError` that the
  float division raises when `end - start == 0` is modelled by returning `none`.
* the population interpolation (lines 39-42, `city_df.reindex(years)` followed by
  `interpolate(method='linear')`): modelled by `interpolateSeries` over a sorted
  list of integer-year / rational-value samples.  pandas keeps known samples
  verbatim, fills a gap between two known samples linearly (the reindexed grid is
  one row per integer year, so positional linear interpolation coincides with
  linear interpolation in the year), pads queries after the last known sample
  with the last value, and leaves queries before the first sample undefined
  (`none` here, `NaN` there).
* `partial_geom` (lines 87-112): the per-frame partial geometry of a road
  segment.  Coordinates are real numbers; `shapely`'s `LineString.length` and
  `LineString.interpolate(d, normalized=False)` are modelled by `totalLength`
  and `interpPoint` (cumulative walk over segment lengths with clamping at the
  far end, exactly shapely's documented behaviour).  A `LineString` with fewer
  than 2 coordinates makes the Python code raise (`coords[0]` on an empty
  coordinate sequence; shapely refuses 1-point linestrings at construction),
  modelled by the `degenerateGeometryError` result.
-/

/-- Build fraction of a segment at a queried year (`get_build_fraction`).
`none` models the `ZeroDivisionError` raised by
`(year - start) / float(end - start)` when `end == start` and the guarded
branches did not fire. `e` stands for the Python parameter `end`
(a Lean keyword). -/
def get_build_fraction (year start e : ℚ) : Option ℚ :=
  if year < start then some 0
  else if year > e then some 1
  else if e - start = 0 then none
  else some ((year - start) / (e - start))

/-- Linear interpolation of a sorted sample list at an integer year, modelling
`city_df.reindex(years)` + `interpolate(method='linear')`: a known year keeps
its sample value verbatim, a year strictly between two adjacent known years is
filled linearly, a year after the last sample is padded with the last value,
and a year before the first sample stays undefined (`NaN`, here `none`). -/
def interpolateSeries : List (ℤ × ℚ) → ℤ → Option ℚ
  | [], _ => none
  | [(t0, v0)], t => if t0 ≤ t then some v0 else none
  | (t0, v0) :: (t1, v1) :: rest, t =>
    if t = t0 then some v0
    else if t < t0 then none
    else if t < t1 then
      some (v0 + (v1 - v0) * ((t - t0 : ℤ) : ℚ) / ((t1 - t0 : ℤ) : ℚ))
    else interpolateSeries ((t1, v1) :: rest) t

/-- Order on samples by time (first component). -/
def timeLT (a b : ℤ × ℚ) : Prop := a.1 < b.1

instance : DecidableRel timeLT := fun a b =>
  inferInstanceAs (Decidable (a.1 < b.1))

instance : IsTrans (ℤ × ℚ) timeLT :=
  ⟨fun _ _ _ h1 h2 => lt_trans h1 h2⟩

/-- Times of a sample list are strictly increasing (the CSV has one row per
census year, so times are distinct and sortable). -/
def SortedTimes (series : List (ℤ × ℚ)) : Prop :=
  List.Chain' timeLT series

instance : DecidablePred SortedTimes := fun series =>
  inferInstanceAs (Decidable (List.Chain' _ series))

/-- A road-segment geometry as loaded from the GeoJSON: either a simple
`LineString` (the branch `isinstance(line_geom, LineString)`) or something
else — for road data the realistic alternative is a multi-part line, which the
Python code leaves untruncated. -/
inductive Geometry where
  | lineString (coords : List (ℝ × ℝ))
  | multiLineString (parts : List (List (ℝ × ℝ)))

/-- Outcome of the per-segment drawing step for one frame: the segment is
skipped (`frac > 0` is false, nothing is drawn), a geometry is drawn, or the
computation fails on degenerate input (the Python exception escaping from
`coords[0]` / shapely on a sub-2-vertex linestring). -/
inductive PartialResult where
  | notDrawn
  | drawn (g : Geometry)
  | degenerateGeometryError

/-- Euclidean length of one segment (`shapely` measures planar distance). -/
noncomputable def segLen (p q : ℝ × ℝ) : ℝ :=
  Real.sqrt ((q.1 - p.1) ^ 2 + (q.2 - p.2) ^ 2)

/-- `line_geom.length`: sum of Euclidean distances between consecutive
vertices. -/
noncomputable def totalLength : List (ℝ × ℝ) → ℝ
  | p :: q :: rest => segLen p q + totalLength (q :: rest)
  | _ => 0

/-- `line_geom.interpolate(d, normalized=False)` on the linestring
`p :: rest`: walk cumulative segment lengths until the target distance falls
within a segment, then interpolate linearly inside it; a distance beyond the
total length is clamped to the last vertex (shapely's documented clamping). -/
noncomputable def interpPoint (p : ℝ × ℝ) : List (ℝ × ℝ) → ℝ → ℝ × ℝ
  | [], _ => p
  | q :: rest, d =>
    let L := segLen p q
    if d ≤ L then (p.1 + d / L * (q.1 - p.1), p.2 + d / L * (q.2 - p.2))
    else interpPoint q rest (d - L)

/-- The frame-loop body for one road segment (`partial_geom`, lines 87-112):
if `frac > 0` fails, nothing is drawn; otherwise, for a simple `LineString`
the partial point at arc length `frac * line_length` is computed and, when
`frac < 1.0`, a two-coordinate line from the first vertex to that point is
drawn, else the full line; a non-`LineString` geometry falls through and is
drawn whole. A `LineString` with fewer than 2 coordinates makes the Python
raise before producing any geometry. -/
noncomputable def partial_geom (frac : ℝ) (line_geom : Geometry) : PartialResult :=
  if 0 < frac then
    match line_geom with
    | .lineString (c0 :: c1 :: rest) =>
      let line_length := totalLength (c0 :: c1 :: rest)
      let partial_length := frac * line_length
      let partial_coord := interpPoint c0 (c1 :: rest) partial_length
      if frac < 1 then .drawn (.lineString [c0, partial_coord])
      else .drawn (.lineString (c0 :: c1 :: rest))
    | .lineString _ => .degenerateGeometryError
    | g => .drawn g
  else .notDrawn

lemma segLen_nonneg (p q : ℝ × ℝ) : 0 ≤ segLen p q :=
  Real.sqrt_nonneg _

/-- C1: the spec requires an explicit guarded branch returning 1.0 for any
queryTime ≥ start when start == end, avoiding a division by zero.  The code
has no such guard: at queryTime == start == end neither `year < start` nor
`year > end` fires, and the fallthrough computes
`(year - start) / float(end - start)` with a zero denominator, raising
ZeroDivisionError (modelled by `none`); only queryTime strictly greater than
start returns 1.0. -/
theorem get_build_fraction_eq_interval_divzero :
    get_build_fraction 1900 1900 1900 = none ∧
    get_build_fraction 1901 1900 1900 = some 1 := by
  constructor <;> norm_num [get_build_fraction]

/-- C2: for start < end, `get_build_fraction` returns 0.0 below start, 1.0
above end, and the linear fraction `(t - start)/(end - start)` in between; the
linear branch takes the value 0 at t == start and 1 at t == end, so there is
no jump at either boundary. -/
theorem get_build_fraction_piecewise (t s e : ℚ) (hse : s < e) :
    (t < s → get_build_fraction t s e = some 0) ∧
    (e < t → get_build_fraction t s e = some 1) ∧
    (s ≤ t → t ≤ e → get_build_fraction t s e = some ((t - s) / (e - s))) ∧
    get_build_fraction s s e = some 0 ∧
    get_build_fraction e s e = some 1 := by
  have hne : e - s ≠ 0 := sub_ne_zero.mpr (ne_of_gt hse)
  refine ⟨fun h => ?_, fun h => ?_, fun h1 h2 => ?_, ?_, ?_⟩
  · simp [get_build_fraction, h]
  · have hst : s < t := hse.trans h
    simp [get_build_fraction, not_lt.mpr hst.le, h]
  · simp only [get_build_fraction, if_neg (not_lt.mpr h1), if_neg (not_lt.mpr h2), if_neg hne]
  · simp [get_build_fraction, lt_irrefl, not_lt.mpr (le_of_lt hse), hne]
  · have : ¬ e < s := not_lt.mpr (le_of_lt hse)
    simp [get_build_fraction, this, lt_irrefl, hne, div_self hne]

/-- Witness for C2 at t = 1905 inside the interval (1900, 1910). -/
theorem get_build_fraction_piecewise_witness :
    (1900 : ℚ) < 1910 ∧ get_build_fraction 1905 1900 1910 = some ((1905 - 1900) / (1910 - 1900)) :=
  ⟨by norm_num,
   (get_build_fraction_piecewise 1905 1900 1910 (by norm_num)).2.2.1 (by norm_num) (by norm_num)⟩

/-- C8: with a reversed interval (end < start) the `year < start` and
`year > end` branches cover every queryTime, so `get_build_fraction` always
returns 0.0 or 1.0 and the division (and its ZeroDivisionError) is never
reached. -/
theorem get_build_fraction_reversed_total (t s e : ℚ) (hes : e < s) :
    get_build_fraction t s e = some 0 ∨ get_build_fraction t s e = some 1 := by
  by_cases h : t < s
  · left; simp [get_build_fraction, h]
  · right
    have het : e < t := lt_of_lt_of_le hes (not_lt.mp h)
    simp [get_build_fraction, h, het]

/-- Witness for C8 on the reversed interval (start, end) = (1910, 1900). -/
theorem get_build_fraction_reversed_total_witness :
    (1900 : ℚ) < 1910 ∧
      (get_build_fraction 1905 1910 1900 = some 0 ∨
        get_build_fraction 1905 1910 1900 = some 1) :=
  ⟨by norm_num, get_build_fraction_reversed_total 1905 1910 1900 (by norm_num)⟩

lemma interpolateSeries_skip (a b : ℤ × ℚ) (rest : List (ℤ × ℚ)) (t : ℤ)
    (hab : a.1 < b.1) (hbt : b.1 ≤ t) :
    interpolateSeries (a :: b :: rest) t = interpolateSeries (b :: rest) t := by
  obtain ⟨ta, va⟩ := a
  obtain ⟨tb, vb⟩ := b
  simp only at hab hbt
  have h1 : ¬ t = ta := by omega
  have h2 : ¬ t < ta := by omega
  have h3 : ¬ t < tb := by omega
  simp only [interpolateSeries, if_neg h1, if_neg h2, if_neg h3]

lemma interpolateSeries_append_skip (pre : List (ℤ × ℚ)) (c : ℤ × ℚ)
    (rest : List (ℤ × ℚ)) (t : ℤ)
    (hp : List.Pairwise timeLT (pre ++ c :: rest)) (hct : c.1 ≤ t) :
    interpolateSeries (pre ++ c :: rest) t = interpolateSeries (c :: rest) t := by
  induction pre with
  | nil => rfl
  | cons a pre' ih =>
    rw [List.cons_append] at hp ⊢
    have hmem : ∀ x ∈ pre' ++ c :: rest, timeLT a x := (List.pairwise_cons.mp hp).1
    have hp' : List.Pairwise timeLT (pre' ++ c :: rest) := (List.pairwise_cons.mp hp).2
    cases pre' with
    | nil =>
      exact interpolateSeries_skip a c rest t (hmem c (by simp)) hct
    | cons b pre'' =>
      rw [List.cons_append] at hp' ⊢
      have hab : timeLT a b := hmem b (by simp)
      have hbc : timeLT b c :=
        (List.pairwise_cons.mp hp').1 c (by simp)
      rw [interpolateSeries_skip a b (pre'' ++ c :: rest) t hab
        (le_trans (le_of_lt hbc) hct)]
      exact ih hp'

/-- C6: on a sorted series, a queryTime strictly between the adjacent known
times t0 < t1 gets the linear interpolation
`v0 + (v1 - v0) * (t - t0) / (t1 - t0)` of the surrounding values, exactly the
fill `reindex` + `interpolate(method='linear')` produces on the dense
integer-year grid. -/
theorem interpolateSeries_between (pre post : List (ℤ × ℚ)) (t0 t1 t : ℤ) (v0 v1 : ℚ)
    (hs : SortedTimes (pre ++ (t0, v0) :: (t1, v1) :: post))
    (h0 : t0 < t) (h1 : t < t1) :
    interpolateSeries (pre ++ (t0, v0) :: (t1, v1) :: post) t
      = some (v0 + (v1 - v0) * ((t - t0 : ℤ) : ℚ) / ((t1 - t0 : ℤ) : ℚ)) := by
  have hp : List.Pairwise timeLT (pre ++ (t0, v0) :: (t1, v1) :: post) :=
    List.chain'_iff_pairwise.mp hs
  rw [interpolateSeries_append_skip pre (t0, v0) ((t1, v1) :: post) t hp h0.le]
  have he : ¬ t = t0 := by omega
  have hl : ¬ t < t0 := by omega
  simp only [interpolateSeries, if_neg he, if_neg hl, if_pos h1]

/-- Witness for C6: the spec's concrete scenario, series
{(1850, 100), (1900, 100000)} queried at 1875 gives 50050. -/
theorem interpolateSeries_between_witness :
    SortedTimes [(1850, 100), (1900, 100000)] ∧
    interpolateSeries [(1850, 100), (1900, 100000)] 1875 = some 50050 := by
  have hsort : SortedTimes [(1850, 100), (1900, 100000)] := by
    simp [SortedTimes, List.chain'_cons, List.chain'_singleton, timeLT]
  refine ⟨hsort, ?_⟩
  have h := interpolateSeries_between [] [] 1850 1900 1875 100 100000
    hsort (by decide) (by decide)
  rw [List.nil_append] at h
  rw [h]
  norm_num

/-- C7: on a sorted series, querying at a known sample's own time returns that
sample's value exactly: pandas keeps non-NaN entries verbatim through
`reindex` + `interpolate`, so there is no drift (values here are exact
rationals).  The statement holds for every sorted series containing the
sample, in particular for series with at least 2 samples. -/
theorem interpolateSeries_at_sample (pre post : List (ℤ × ℚ)) (ts : ℤ) (vs : ℚ)
    (hs : SortedTimes (pre ++ (ts, vs) :: post)) :
    interpolateSeries (pre ++ (ts, vs) :: post) ts = some vs := by
  have hp : List.Pairwise timeLT (pre ++ (ts, vs) :: post) :=
    List.chain'_iff_pairwise.mp hs
  rw [interpolateSeries_append_skip pre (ts, vs) post ts hp (le_refl ts)]
  cases post with
  | nil => simp [interpolateSeries]
  | cons c post' =>
    obtain ⟨tc, vc⟩ := c
    simp [interpolateSeries]

/-- Witness for C7: querying the two-sample census series at the known year
1900 returns its recorded value 100000 exactly. -/
theorem interpolateSeries_at_sample_witness :
    SortedTimes [(1850, 100), (1900, 100000)] ∧
    interpolateSeries [(1850, 100), (1900, 100000)] 1900 = some 100000 := by
  have hsort : SortedTimes [(1850, 100), (1900, 100000)] := by
    simp [SortedTimes, List.chain'_cons, List.chain'_singleton, timeLT]
  refine ⟨hsort, ?_⟩
  have h := interpolateSeries_at_sample [(1850, 100)] [] 1900 100000 hsort
  simpa using h

/-- Evaluate a segment length whose squared length is a perfect square. -/
lemma segLen_eval (x1 y1 x2 y2 r : ℝ) (hr : 0 ≤ r)
    (h : (x2 - x1) ^ 2 + (y2 - y1) ^ 2 = r ^ 2) :
    segLen (x1, y1) (x2, y2) = r := by
  simp only [segLen]
  rw [h, Real.sqrt_sq hr]

/-- C3: on a polyline with at least 2 vertices, a fraction ≥ 1 draws the full
original coordinate sequence unchanged (`partial_geom = line_geom`), and
fraction 0 fails the `frac > 0` test so nothing is drawn for that segment that
year. -/
theorem partial_geom_full_and_empty (c0 c1 : ℝ × ℝ) (rest : List (ℝ × ℝ)) (frac : ℝ) :
    (1 ≤ frac → partial_geom frac (.lineString (c0 :: c1 :: rest))
        = .drawn (.lineString (c0 :: c1 :: rest))) ∧
    partial_geom 0 (.lineString (c0 :: c1 :: rest)) = .notDrawn := by
  constructor
  · intro h
    have h0 : (0 : ℝ) < frac := lt_of_lt_of_le one_pos h
    unfold partial_geom
    rw [if_pos h0]
    simp only [if_neg (not_lt.mpr h)]
  · unfold partial_geom
    rw [if_neg (lt_irrefl 0)]

/-- Witness for C3 at fraction 1 and fraction 0 on a concrete 3-vertex
polyline. -/
theorem partial_geom_full_and_empty_witness :
    (1 : ℝ) ≤ 1 ∧
    partial_geom 1 (.lineString [((0:ℝ), (0:ℝ)), (5, 0), (5, 5)])
      = .drawn (.lineString [(0, 0), (5, 0), (5, 5)]) ∧
    partial_geom 0 (.lineString [((0:ℝ), (0:ℝ)), (5, 0), (5, 5)]) = .notDrawn :=
  ⟨le_refl 1,
   (partial_geom_full_and_empty (0, 0) (5, 0) [(5, 5)] 1).1 (le_refl 1),
   (partial_geom_full_and_empty (0, 0) (5, 0) [(5, 5)] 1).2⟩

/-- C4: on a polyline with at least 2 vertices and 0 < fraction < 1, the drawn
geometry is exactly the two-coordinate line from the first vertex to the point
at arc length `fraction * totalLength` along the polyline (`interpPoint` walks
cumulative segment lengths and interpolates linearly inside the containing
segment). -/
theorem partial_geom_partial_point (c0 c1 : ℝ × ℝ) (rest : List (ℝ × ℝ)) (frac : ℝ)
    (h0 : 0 < frac) (h1 : frac < 1) :
    partial_geom frac (.lineString (c0 :: c1 :: rest))
      = .drawn (.lineString
          [c0, interpPoint c0 (c1 :: rest) (frac * totalLength (c0 :: c1 :: rest))]) := by
  unfold partial_geom
  rw [if_pos h0]
  simp only [if_pos h1]

/-- Witness for C4: the spec's concrete scenario — polyline
[(0,0),(5,0),(5,5)], interval (1900,1910), query 1905 → fraction 1/2, target
arc length 5, computed point (5,0), result [(0,0),(5,0)]. -/
theorem partial_geom_partial_point_witness :
    get_build_fraction 1905 1900 1910 = some (1/2) ∧
    partial_geom (1/2) (.lineString [((0:ℝ), (0:ℝ)), (5, 0), (5, 5)])
      = .drawn (.lineString [(0, 0), (5, 0)]) := by
  have hs1 : segLen ((0:ℝ), (0:ℝ)) (5, 0) = 5 :=
    segLen_eval 0 0 5 0 5 (by norm_num) (by norm_num)
  have hs2 : segLen ((5:ℝ), (0:ℝ)) (5, 5) = 5 :=
    segLen_eval 5 0 5 5 5 (by norm_num) (by norm_num)
  have hT : totalLength [((0:ℝ), (0:ℝ)), (5, 0), (5, 5)] = 10 := by
    simp only [totalLength, hs1, hs2]
    norm_num
  have hP : interpPoint ((0:ℝ), (0:ℝ)) [(5, 0), (5, 5)] ((1/2) * 10) = (5, 0) := by
    simp only [interpPoint, hs1]
    norm_num
  refine ⟨by norm_num [get_build_fraction], ?_⟩
  rw [partial_geom_partial_point (0, 0) (5, 0) [(5, 5)] (1/2) (by norm_num) (by norm_num),
    hT, hP]

/-- C5 counterexample: for the bent polyline [(0,0),(3,0),(3,8)] (total length
11) at fraction 7/11, the computed point is (3,4), the two-point partial line
[(0,0),(3,4)] has totalLength 5, while fraction * totalLength(original) = 7 —
the straight first-vertex-to-point construction is strictly shorter than the
arc length it is supposed to represent, far outside any floating tolerance. -/
theorem partial_length_counterexample :
    partial_geom (7/11) (.lineString [((0:ℝ), (0:ℝ)), (3, 0), (3, 8)])
      = .drawn (.lineString [(0, 0), (3, 4)]) ∧
    totalLength [((0:ℝ), (0:ℝ)), (3, 4)] = 5 ∧
    (7/11 : ℝ) * totalLength [((0:ℝ), (0:ℝ)), (3, 0), (3, 8)] = 7 ∧
    (5 : ℝ) ≠ 7 := by
  have hs1 : segLen ((0:ℝ), (0:ℝ)) (3, 0) = 3 :=
    segLen_eval 0 0 3 0 3 (by norm_num) (by norm_num)
  have hs2 : segLen ((3:ℝ), (0:ℝ)) (3, 8) = 8 :=
    segLen_eval 3 0 3 8 8 (by norm_num) (by norm_num)
  have hs3 : segLen ((0:ℝ), (0:ℝ)) (3, 4) = 5 :=
    segLen_eval 0 0 3 4 5 (by norm_num) (by norm_num)
  have hT : totalLength [((0:ℝ), (0:ℝ)), (3, 0), (3, 8)] = 11 := by
    simp only [totalLength, hs1, hs2]
    norm_num
  have hP : interpPoint ((0:ℝ), (0:ℝ)) [(3, 0), (3, 8)] ((7/11) * 11) = (3, 4) := by
    simp only [interpPoint, hs1]
    rw [if_neg (by norm_num)]
    simp only [interpPoint, hs2]
    norm_num
  refine ⟨?_, ?_, ?_, by norm_num⟩
  · unfold partial_geom
    rw [if_pos (by norm_num : (0:ℝ) < 7/11)]
    simp only [if_pos (by norm_num : (7/11 : ℝ) < 1), hT, hP]
  · simp only [totalLength, hs3]
    norm_num
  · rw [hT]
    norm_num

/-- C5 amended: for a polyline with exactly 2 vertices (a single segment) and
0 < fraction < 1, the totalLength of the two-point partial line equals
fraction * totalLength(original) exactly; for polylines with 3 or more
vertices that bend, the straight first-vertex-to-point construction can be
strictly shorter (see the counterexample). -/
theorem partial_length_single_segment (a b : ℝ × ℝ) (frac : ℝ)
    (h0 : 0 < frac) (h1 : frac < 1) :
    partial_geom frac (.lineString [a, b])
      = .drawn (.lineString [a, interpPoint a [b] (frac * totalLength [a, b])]) ∧
    totalLength [a, interpPoint a [b] (frac * totalLength [a, b])]
      = frac * totalLength [a, b] := by
  have hL : totalLength [a, b] = segLen a b := by
    simp [totalLength]
  have hLnn : 0 ≤ segLen a b := segLen_nonneg a b
  have hdle : frac * segLen a b ≤ segLen a b :=
    mul_le_of_le_one_left hLnn h1.le
  have hip : interpPoint a [b] (frac * segLen a b)
      = (a.1 + frac * segLen a b / segLen a b * (b.1 - a.1),
         a.2 + frac * segLen a b / segLen a b * (b.2 - a.2)) := by
    simp only [interpPoint]
    rw [if_pos hdle]
  constructor
  · unfold partial_geom
    rw [if_pos h0]
    simp only [if_pos h1]
  · rw [hL, hip]
    rcases eq_or_ne (segLen a b) 0 with hz | hz
    · rw [hz]
      simp only [mul_zero, zero_div, zero_mul, add_zero]
      simp [totalLength, segLen]
    · have hf : frac * segLen a b / segLen a b = frac := by
        field_simp
      rw [hf]
      simp only [totalLength, segLen, add_zero]
      have hsq : (a.1 + frac * (b.1 - a.1) - a.1) ^ 2 + (a.2 + frac * (b.2 - a.2) - a.2) ^ 2
          = frac ^ 2 * ((b.1 - a.1) ^ 2 + (b.2 - a.2) ^ 2) := by
        ring
      rw [hsq, Real.sqrt_mul (sq_nonneg frac), Real.sqrt_sq h0.le]

/-- Witness for amended C5: the spec's single-segment scenario
[(0,0),(10,0)] at fraction 1/2 gives [(0,0),(5,0)] of length 5 = (1/2)·10. -/
theorem partial_length_single_segment_witness :
    partial_geom (1/2) (.lineString [((0:ℝ), (0:ℝ)), (10, 0)])
      = .drawn (.lineString [(0, 0), (5, 0)]) ∧
    totalLength [((0:ℝ), (0:ℝ)), (5, 0)]
      = (1/2) * totalLength [((0:ℝ), (0:ℝ)), (10, 0)] := by
  have h := partial_length_single_segment (0, 0) (10, 0) (1/2)
    (by norm_num) (by norm_num)
  have hs : segLen ((0:ℝ), (0:ℝ)) (10, 0) = 10 :=
    segLen_eval 0 0 10 0 10 (by norm_num) (by norm_num)
  have hT : totalLength [((0:ℝ), (0:ℝ)), (10, 0)] = 10 := by
    simp only [totalLength, hs]
    norm_num
  have hP : interpPoint ((0:ℝ), (0:ℝ)) [(10, 0)] ((1/2) * 10) = (5, 0) := by
    simp only [interpPoint, hs]
    norm_num
  obtain ⟨h1, h2⟩ := h
  rw [hT] at h1 h2
  rw [hP] at h1 h2
  exact ⟨h1, by rw [hT]; exact h2⟩

/-- C9 counterexample: at fraction 0 the `frac > 0` test fails first, so even
a degenerate polyline (here the empty coordinate list) is silently skipped
(`notDrawn`) instead of failing with DegenerateGeometryError. -/
theorem partial_geom_degenerate_skip_counterexample :
    partial_geom 0 (.lineString ([] : List (ℝ × ℝ))) = .notDrawn ∧
    PartialResult.notDrawn ≠ PartialResult.degenerateGeometryError := by
  refine ⟨?_, fun h => PartialResult.noConfusion h⟩
  unfold partial_geom
  rw [if_neg (lt_irrefl 0)]

/-- C9 amended: for every fraction > 0, a polyline with fewer than 2 vertices
makes the computation fail (the Python code raises before producing any
geometry); at fraction ≤ 0 the segment is skipped before the geometry is
touched, so no error is raised and nothing is drawn. -/
theorem partial_geom_degenerate (coords : List (ℝ × ℝ)) (frac : ℝ)
    (hlen : coords.length < 2) (hfrac : 0 < frac) :
    partial_geom frac (.lineString coords) = .degenerateGeometryError := by
  match coords with
  | [] =>
    unfold partial_geom
    rw [if_pos hfrac]
  | [p] =>
    unfold partial_geom
    rw [if_pos hfrac]
  | p :: q :: rest =>
    simp only [List.length_cons] at hlen
    omega

/-- Witness for amended C9 at the empty polyline and fraction 1. -/
theorem partial_geom_degenerate_witness :
    ([] : List (ℝ × ℝ)).length < 2 ∧ (0 : ℝ) < 1 ∧
    partial_geom 1 (.lineString ([] : List (ℝ × ℝ))) = .degenerateGeometryError :=
  ⟨by norm_num, by norm_num,
   partial_geom_degenerate [] 1 (by norm_num) (by norm_num)⟩

/-- C10: a geometry that is not a simple LineString (here a multi-part line)
falls through the `isinstance(line_geom, LineString)` check and is drawn whole
for any 0 < fraction < 1 — no error and no partial construction. -/
theorem partial_geom_non_linestring (parts : List (List (ℝ × ℝ))) (frac : ℝ)
    (h0 : 0 < frac) (_h1 : frac < 1) :
    partial_geom frac (.multiLineString parts) = .drawn (.multiLineString parts) := by
  unfold partial_geom
  rw [if_pos h0]

/-- Witness for C10 on a concrete two-part multi-line at fraction 1/2. -/
theorem partial_geom_non_linestring_witness :
    (0 : ℝ) < 1/2 ∧ (1/2 : ℝ) < 1 ∧
    partial_geom (1/2)
        (.multiLineString [[((0:ℝ), (0:ℝ)), (1, 0)], [(2, 0), (3, 0)]])
      = .drawn (.multiLineString [[(0, 0), (1, 0)], [(2, 0), (3, 0)]]) :=
  ⟨by norm_num, by norm_num,
   partial_geom_non_linestring [[(0, 0), (1, 0)], [(2, 0), (3, 0)]] (1/2)
     (by norm_num) (by norm_num)⟩
